import Mathlib

/-
Shallow embedding of the runtime shell-completion engine of goobits-cli
(src/src/completion_engine.rs) and proofs about it.

The Rust structs `CliOption`, `Argument`, `Command`, `CliConfig`, `Config`,
`Context`, `ContextType` and the methods of `CompletionEngine` are translated
definition by definition.  Rust `HashMap<String, _>` becomes an association
list `List (String × _)` (lookup by key; iteration order is irrelevant to the
engine's observable output because every result is deduplicated and sorted
before it is returned).  The filesystem that `get_file_completions` /
`get_directory_completions` read is an explicit `FileSys` value: its `files`
field holds the names of the regular files of the current directory and
`dirs` the directory names (an IO error is the empty list, exactly the
`Err(_) => Vec::new()` arms of the source).  A Rust panic — the engine can
panic in `parse_command_line` when the byte slice `&line[..cursor]` does not
fall on a character boundary — is modelled as `none`; `some` is a normal
return.
-/

namespace Goobits

/-- Rust struct `CliOption`: a named option of the loaded specification. -/
structure CliOption where
  name : String
  short : Option String
  option_type : Option String
  choices : Option (List String)
  desc : Option String

/-- Rust struct `Argument`: a positional argument of the specification. -/
structure Argument where
  name : String
  required : Option Bool
  choices : Option (List String)

/-- Rust struct `Command`: one command or subcommand level of the loaded
specification; recursive through the `subcommands` association list. -/
inductive Command where
  | mk : Option String → Option (List Argument) → Option (List CliOption) →
      Option (List (String × Command)) → Command

/-- Projection for the `desc` field of `Command`. -/
def Command.desc : Command → Option String
  | .mk d _ _ _ => d

/-- Projection for the `args` field of `Command`. -/
def Command.args : Command → Option (List Argument)
  | .mk _ a _ _ => a

/-- Projection for the `options` field of `Command`. -/
def Command.options : Command → Option (List CliOption)
  | .mk _ _ o _ => o

/-- Projection for the `subcommands` field of `Command`. -/
def Command.subcommands : Command → Option (List (String × Command))
  | .mk _ _ _ s => s

/-- Rust struct `CliConfig`: the `cli:` section of goobits.yaml. -/
structure CliConfig where
  commands : Option (List (String × Command))
  options : Option (List CliOption)
  enable_upgrade_command : Option Bool

/-- Rust struct `Config`: the root of the loaded specification. -/
structure Config where
  cli : Option CliConfig

/-- Rust enum `ContextType`. -/
inductive ContextType where
  | Command
  | Subcommand
  | Option
  | OptionValue
  | Unknown
deriving DecidableEq, Repr

/-- Rust struct `Context`.  The Rust field `partial` is a reserved word in
Lean, so it is rendered `partial_text`. -/
structure Context where
  context_type : ContextType
  level : Int
  current_command : Option String
  subcommand : Option String
  last_token : String
  previous_token : String
  partial_text : Option String
  option : Option String
deriving DecidableEq, Repr

/-- The filesystem the engine sees when it lists the current directory:
names of regular files and names of directories.  A read error collapses to
empty lists, matching the `Err(_) => Vec::new()` arms of the source. -/
structure FileSys where
  files : List String
  dirs : List String

/-- The empty specification, Rust `Config { cli: None }`. -/
def emptyConfig : Config := { cli := none }

/-- An empty current directory (or an unreadable one). -/
def emptyFs : FileSys := { files := [], dirs := [] }

/-- The double-quote character, written by code point to keep the source
free of quote literals. -/
def dquoteChar : Char := Char.ofNat 34

/-- The single-quote character, written by code point. -/
def squoteChar : Char := Char.ofNat 39

/-- Byte length of a character sequence under UTF-8, Rust `str::len`. -/
def utf8Len (cs : List Char) : Nat := cs.foldr (fun c n => c.utf8Size + n) 0

/-- Rust `&line[..k]` for `k ≤ line.len()`: the prefix of the character
sequence holding the first `k` bytes.  When `k` falls strictly inside the
UTF-8 encoding of a character the Rust slice panics ("byte index is not a
char boundary"); that outcome is `none`. -/
def byteTruncate : List Char → Nat → Option (List Char)
  | _, 0 => some []
  | [], _ + 1 => some []
  | c :: cs, k + 1 =>
      if c.utf8Size ≤ k + 1 then
        (byteTruncate cs (k + 1 - c.utf8Size)).map (fun t => c :: t)
      else
        none

/-- The character loop of `CompletionEngine::parse_command_line`, lines
151-173 of the source: split on whitespace outside quoted regions, keeping
quote characters in the token verbatim. -/
def tokenizeLoop : List Char → Bool → Option Char → List Char →
    List (List Char) → List (List Char)
  | [], _, _, current_token, tokens =>
      if current_token = [] then tokens else tokens ++ [current_token]
  | ch :: rest, in_quotes, quote_char, current_token, tokens =>
      if (ch = dquoteChar ∨ ch = squoteChar) ∧ in_quotes = false then
        tokenizeLoop rest true (some ch) (current_token ++ [ch]) tokens
      else if some ch = quote_char ∧ in_quotes = true then
        tokenizeLoop rest false none (current_token ++ [ch]) tokens
      else if ch.isWhitespace ∧ in_quotes = false then
        if current_token = [] then
          tokenizeLoop rest in_quotes quote_char [] tokens
        else
          tokenizeLoop rest in_quotes quote_char [] (tokens ++ [current_token])
      else
        tokenizeLoop rest in_quotes quote_char (current_token ++ [ch]) tokens

/-- `CompletionEngine::parse_command_line`: clamp the cursor to the byte
length of the line, slice the line at the cursor (panic — `none` — when the
cursor is not on a character boundary), then tokenize.  The Rust function
always returns `Ok` when it returns at all, so the only `none` is the
panic. -/
def parse_command_line (line : String) (cursor_pos : Option Nat) :
    Option (List String) :=
  let cp := cursor_pos.getD (utf8Len line.data)
  match byteTruncate line.data (min cp (utf8Len line.data)) with
  | none => none
  | some relevant_line =>
      some ((tokenizeLoop relevant_line false none [] []).map String.mk)

/-- Rust `str::starts_with`: byte-prefix test, which on UTF-8 text is the
character-list prefix test. -/
def startsWithStr (s p : String) : Bool := p.data.isPrefixOf s.data

/-- Lexicographic comparison of character sequences by code point, which on
UTF-8 text coincides with Rust's byte-wise `String` ordering (the order used
by `Vec::<String>::sort`). -/
def charListLe : List Char → List Char → Bool
  | [], _ => true
  | _ :: _, [] => false
  | a :: as, b :: bs =>
    if a.toNat < b.toNat then true
    else if b.toNat < a.toNat then false
    else charListLe as bs

/-- Rust's `String` ordering. -/
def strLe (a b : String) : Bool := charListLe a.data b.data

/-- The context returned for an empty token list (and for the list holding
only the program name), source lines 184-211: a `Command` context with no
partial text. -/
def emptyContext : Context :=
  { context_type := ContextType.Command, level := 0, current_command := none,
    subcommand := none, last_token := "", previous_token := "",
    partial_text := none, option := none }

/-- The command map of the loaded specification, source lines 245-249:
`config.cli` and `cli.commands` both default to the empty map. -/
def cliCommands (cfg : Config) : List (String × Command) :=
  match cfg.cli with
  | some cli => cli.commands.getD []
  | none => []

/-- `CompletionEngine::analyze_context`, source lines 183-280.  The program
name is discarded; a dash on the last token means `Option`, a dash on the
second-to-last means `OptionValue` (both early returns, before any command
matching, so neither carries `current_command` or `partial_text`); a single
remaining token is `Command` with that token as partial text; otherwise a
first token matching a specification command yields `Subcommand` (two tokens
and the command declares subcommands) or `Option`, and an unmatched first
token leaves the context `Unknown`. -/
def analyze_context (cfg : Config) (tokens : List String) : Context :=
  match tokens with
  | [] => emptyContext
  | _prog :: toks =>
    if toks.isEmpty then emptyContext
    else
      let last_token := toks.getLastD ""
      let previous_token :=
        if 1 < toks.length then (toks.get? (toks.length - 2)).getD "" else ""
      let base : Context :=
        { context_type := ContextType.Unknown, level := 0,
          current_command := none, subcommand := none,
          last_token := last_token, previous_token := previous_token,
          partial_text := none, option := none }
      if startsWithStr last_token "-" then
        { base with context_type := ContextType.Option }
      else if startsWithStr previous_token "-" then
        { base with context_type := ContextType.OptionValue,
                    option := some previous_token }
      else
        let cli_commands := cliCommands cfg
        if toks.length = 1 then
          { base with context_type := ContextType.Command, level := 0,
                      partial_text := some (toks.headD "") }
        else
          match List.lookup (toks.headD "") cli_commands with
          | some command_config =>
            let withCmd := { base with current_command := some (toks.headD "") }
            match command_config.subcommands with
            | some subs =>
              if toks.length = 2 then
                { withCmd with context_type := ContextType.Subcommand,
                               level := 1,
                               partial_text := some ((toks.get? 1).getD "") }
              else if 2 < toks.length ∧
                  (List.lookup ((toks.get? 1).getD "") subs).isSome = true then
                { withCmd with context_type := ContextType.Option, level := 2,
                               subcommand := some ((toks.get? 1).getD "") }
              else
                { withCmd with context_type := ContextType.Option, level := 1 }
            | none =>
              { withCmd with context_type := ContextType.Option, level := 1 }
          | none => base

/-- `CompletionEngine::get_command_completions`, source lines 313-339:
specification command names, then the built-ins help/version/completion/
config, then upgrade unless `enable_upgrade_command` is `Some(false)`. -/
def get_command_completions (cfg : Config) : List String :=
  let commands :=
    match cfg.cli with
    | some cli =>
      match cli.commands with
      | some cli_commands => cli_commands.map Prod.fst
      | none => []
    | none => []
  let builtin_commands := ["help", "version", "completion", "config"]
  let upgrade_enabled :=
    (cfg.cli.bind CliConfig.enable_upgrade_command).getD true
  let builtin_commands :=
    if upgrade_enabled then builtin_commands ++ ["upgrade"] else builtin_commands
  commands ++ builtin_commands

/-- `CompletionEngine::get_subcommand_completions`, source lines 341-385:
hard-coded lists for the built-in commands `completion` and `config`, else
the subcommand names of the matched specification command. -/
def get_subcommand_completions (cfg : Config) (context : Context) : List String :=
  match context.current_command with
  | none => []
  | some command =>
    if command = "completion" then ["generate", "install", "instructions"]
    else if command = "config" then ["get", "set", "reset", "path"]
    else
      match cfg.cli with
      | none => []
      | some cli =>
        match List.lookup command (cli.commands.getD []) with
        | none => []
        | some command_config => (command_config.subcommands.getD []).map Prod.fst

/-- Long and short flag forms of a list of option specifications, the loop
bodies at source lines 393-398 and 421-426. -/
def optionFlags (opts : List CliOption) : List String :=
  (opts.map (fun opt =>
    ("--" ++ opt.name) ::
      (match opt.short with
       | some s => ["-" ++ s]
       | none => []))).flatten

/-- The subcommand override of source lines 412-418 and 524-530: when the
context carries a subcommand that the matched command declares, its node
replaces the command's node. -/
def subcommandOverride (command_config : Command) (context : Context) : Command :=
  match context.subcommand with
  | some subcommand =>
    match command_config.subcommands with
    | some subs =>
      match List.lookup subcommand subs with
      | some sub_config => sub_config
      | none => command_config
    | none => command_config
  | none => command_config

/-- `CompletionEngine::get_option_completions`, source lines 387-440: global
option flags, then the matched command's (or overriding subcommand's) own
flags, then the standard flags. -/
def get_option_completions (cfg : Config) (context : Context) : List String :=
  let global_opts :=
    match cfg.cli with
    | some cli => optionFlags (cli.options.getD [])
    | none => []
  let command_opts :=
    match context.current_command with
    | none => []
    | some command =>
      match List.lookup command (cliCommands cfg) with
      | none => []
      | some command_config =>
        optionFlags ((subcommandOverride command_config context).options.getD [])
  global_opts ++ command_opts ++ ["--help", "-h", "--version", "-V"]

/-- Rust `str::trim_start_matches('-')`: drop every leading dash. -/
def trimDashes (s : String) : String :=
  String.mk (s.data.dropWhile (fun c => c = '-'))

/-- `CompletionEngine::find_option_config`, source lines 502-543: look the
option name (long or short form) up among the global options, then among the
options of the matched command after the subcommand override. -/
def find_option_config (cfg : Config) (option_name : String) (context : Context) :
    Option CliOption :=
  let fromGlobal :=
    match cfg.cli with
    | some cli =>
      (cli.options.getD []).find? (fun opt =>
        opt.name = option_name ∨ opt.short = some option_name)
    | none => none
  match fromGlobal with
  | some opt => some opt
  | none =>
    match context.current_command with
    | none => none
    | some command =>
      match cfg.cli with
      | none => none
      | some cli =>
        match List.lookup command (cli.commands.getD []) with
        | none => none
        | some command_config =>
          ((subcommandOverride command_config context).options.getD []).find?
            (fun opt => opt.name = option_name ∨ opt.short = some option_name)

/-- `CompletionEngine::get_file_completions`, source lines 545-562: the
regular-file names of the current directory. -/
def get_file_completions (fs : FileSys) : List String := fs.files

/-- `CompletionEngine::get_directory_completions`, source lines 564-581: the
directory names of the current directory, each with a trailing slash. -/
def get_directory_completions (fs : FileSys) : List String :=
  fs.dirs.map (fun d => d ++ "/")

/-- `CompletionEngine::get_option_value_completions`, source lines 442-500:
hard-coded value sets for built-in command/option pairs (reachable only when
the context carries a current command), then lookup of the option
specification and dispatch on its type. -/
def get_option_value_completions (cfg : Config) (fs : FileSys) (context : Context) :
    List String :=
  match context.option with
  | none => []
  | some raw_option =>
    let option := trimDashes raw_option
    let builtin : Option (List String) :=
      match context.current_command with
      | some command =>
        if command = "completion" ∧ option = "shell" then
          some ["bash", "zsh", "fish", "powershell"]
        else if command = "config" ∧ option = "format" then
          some ["json", "yaml", "plain"]
        else if command = "config" ∧ option = "value-type" then
          some ["string", "int", "float", "bool"]
        else none
      | none => none
    match builtin with
    | some values => values
    | none =>
      match find_option_config cfg option context with
      | none => []
      | some option_config =>
        let option_type := option_config.option_type.getD "str"
        if option_type = "choice" then
          match option_config.choices with
          | some choices => choices
          | none => []
        else if option_type = "file" ∨ option = "config" ∨ option = "file" ∨
            option = "input" ∨ option = "output" then
          get_file_completions fs
        else if option_type = "dir" ∨ option = "directory" ∨ option = "dir" ∨
            option = "output-dir" then
          get_directory_completions fs
        else if option_type = "bool" ∨ option_type = "flag" then
          ["true", "false"]
        else []

/-- `CompletionEngine::generate_completions`, source lines 282-311: dispatch
on the context type, then filter by the partial text when one is present. -/
def generate_completions (cfg : Config) (fs : FileSys) (context : Context) :
    List String :=
  let completions :=
    match context.context_type with
    | ContextType.Command => get_command_completions cfg
    | ContextType.Subcommand => get_subcommand_completions cfg context
    | ContextType.Option => get_option_completions cfg context
    | ContextType.OptionValue => get_option_value_completions cfg fs context
    | ContextType.Unknown => []
  match context.partial_text with
  | some p => completions.filter (fun c => startsWithStr c p)
  | none => completions

/-- The deduplicate-then-sort post-processing of
`CompletionEngine::get_completions`, source lines 121-124 (collect into a
`HashSet`, then `sort`).  The observable result — the strictly sorted list
of the distinct candidates — is produced here by `List.dedup` followed by
insertion sort over the lexicographic order on strings, which agrees with
Rust's byte-wise `String` order on UTF-8 text. -/
def dedupSort (l : List String) : List String :=
  List.insertionSort (fun a b => strLe a b = true) l.dedup

/-- `CompletionEngine::get_completions`, source lines 119-128, composed with
`get_completions_impl` (lines 130-137).  The `shell` argument is ignored by
the source (`_shell`).  `none` models the byte-slice panic inside
`parse_command_line`; the `Err` arm of the source is unreachable because no
stage ever returns `Err`. -/
def get_completions (cfg : Config) (fs : FileSys) (_shell : String)
    (current_line : String) (cursor_pos : Option Nat) : Option (List String) :=
  match parse_command_line current_line cursor_pos with
  | none => none
  | some tokens =>
    let context := analyze_context cfg tokens
    some (dedupSort (generate_completions cfg fs context))

/-- The outcome of reading and parsing the specification file, the input of
`CompletionEngine::load_config` (source lines 107-117).  Reading the file and
YAML-parsing its text are external effects (`fs::read_to_string`,
`serde_yaml::from_str`); their three possible outcomes are enumerated
here. -/
inductive FileReadResult where
  | readError
  | parseError (raw : String)
  | parsed (config : Config)

/-- `CompletionEngine::load_config`: a read failure or a parse failure both
collapse to the empty specification, and a parsed file is taken as is. -/
def load_config : FileReadResult → Config
  | FileReadResult.readError => { cli := none }
  | FileReadResult.parseError _ => { cli := none }
  | FileReadResult.parsed config => config

end Goobits

namespace Goobits

/-- Splitting a head comparison: a cons list precedes another exactly when
the head code points are strictly ordered or equal heads with ordered
tails. -/
theorem charListLe_cons_iff {a b : Char} {as bs : List Char} :
    charListLe (a :: as) (b :: bs) = true ↔
      a.toNat < b.toNat ∨ (a.toNat = b.toNat ∧ charListLe as bs = true) := by
  simp only [charListLe]
  by_cases h1 : a.toNat < b.toNat
  · simp [h1]
  · by_cases h2 : b.toNat < a.toNat
    · simp only [if_neg h1, if_pos h2]
      constructor
      · intro h; cases h
      · intro h
        rcases h with h | ⟨he, _⟩
        · omega
        · omega
    · have he : a.toNat = b.toNat := by omega
      simp [h1, h2, he]

/-- The string comparison of the engine is total. -/
theorem charListLe_total : ∀ a b : List Char,
    charListLe a b = true ∨ charListLe b a = true
  | [], _ => Or.inl rfl
  | _ :: _, [] => Or.inr rfl
  | a :: as, b :: bs => by
    rcases Nat.lt_trichotomy a.toNat b.toNat with h | h | h
    · exact Or.inl (charListLe_cons_iff.mpr (Or.inl h))
    · rcases charListLe_total as bs with ih | ih
      · exact Or.inl (charListLe_cons_iff.mpr (Or.inr ⟨h, ih⟩))
      · exact Or.inr (charListLe_cons_iff.mpr (Or.inr ⟨h.symm, ih⟩))
    · exact Or.inr (charListLe_cons_iff.mpr (Or.inl h))

/-- The string comparison of the engine is transitive. -/
theorem charListLe_trans : ∀ a b c : List Char,
    charListLe a b = true → charListLe b c = true → charListLe a c = true
  | [], _, _, _, _ => rfl
  | _ :: _, [], _, h1, _ => by simp [charListLe] at h1
  | _ :: _, _ :: _, [], _, h2 => by simp [charListLe] at h2
  | a :: as, b :: bs, c :: cs, h1, h2 => by
    rw [charListLe_cons_iff] at h1 h2 ⊢
    rcases h1 with h1 | ⟨h1e, h1r⟩ <;> rcases h2 with h2 | ⟨h2e, h2r⟩
    · exact Or.inl (by omega)
    · exact Or.inl (by omega)
    · exact Or.inl (by omega)
    · exact Or.inr ⟨by omega, charListLe_trans as bs cs h1r h2r⟩

instance : IsTotal String (fun a b => strLe a b = true) :=
  ⟨fun a b => charListLe_total a.data b.data⟩

instance : IsTrans String (fun a b => strLe a b = true) :=
  ⟨fun a b c => charListLe_trans a.data b.data c.data⟩

/-- The post-processing step always produces a sorted list. -/
theorem dedupSort_sorted (l : List String) :
    (dedupSort l).Sorted (fun a b => strLe a b = true) :=
  List.sorted_insertionSort _ _

/-- The post-processing step always produces a duplicate-free list. -/
theorem dedupSort_nodup (l : List String) : (dedupSort l).Nodup :=
  (List.perm_insertionSort _ _).nodup_iff.mpr l.nodup_dedup

/-- Post-processing neither invents nor loses candidates. -/
theorem mem_dedupSort {a : String} {l : List String} :
    a ∈ dedupSort l ↔ a ∈ l :=
  (List.perm_insertionSort _ _).mem_iff.trans List.mem_dedup

/-- Claim C1.  Evaluating the engine on the line
`prog completion generate --shell ba` (cursor at the end, empty
specification): the context is classified `OptionValue` with option token
`--shell`, but the returned candidate list is empty rather than `[bash]`.
The early `OptionValue` return in `analyze_context` records neither
`current_command` nor `partial_text`, so the hard-coded
(`completion`, `shell`) value set in `get_option_value_completions` is
unreachable and no prefix filtering happens. -/
theorem shell_value_completions_empty :
    parse_command_line "prog completion generate --shell ba" none =
      some ["prog", "completion", "generate", "--shell", "ba"] ∧
    (analyze_context emptyConfig
        ["prog", "completion", "generate", "--shell", "ba"]).context_type =
      ContextType.OptionValue ∧
    (analyze_context emptyConfig
        ["prog", "completion", "generate", "--shell", "ba"]).option =
      some "--shell" ∧
    (analyze_context emptyConfig
        ["prog", "completion", "generate", "--shell", "ba"]).current_command =
      none ∧
    get_completions emptyConfig emptyFs "bash"
      "prog completion generate --shell ba" none = some [] := by
  decide

/-- Claim C2.  Whatever the line, cursor and loaded specification, every
candidate list the engine actually returns is sorted ascending under the
engine's string order and holds no duplicate entries. -/
theorem get_completions_sorted_nodup (cfg : Config) (fs : FileSys)
    (shell current_line : String) (cursor_pos : Option Nat) (out : List String)
    (h : get_completions cfg fs shell current_line cursor_pos = some out) :
    out.Sorted (fun a b => strLe a b = true) ∧ out.Nodup := by
  cases hp : parse_command_line current_line cursor_pos with
  | none =>
    rw [get_completions, hp] at h
    cases h
  | some tokens =>
    rw [get_completions, hp] at h
    injection h with h
    exact h ▸ ⟨dedupSort_sorted _, dedupSort_nodup _⟩

/-- Witness for claim C2 at a concrete request. -/
theorem get_completions_sorted_nodup_witness :
    get_completions emptyConfig emptyFs "bash" "prog " none =
      some ["completion", "config", "help", "upgrade", "version"] ∧
    (List.Sorted (fun a b => strLe a b = true)
        ["completion", "config", "help", "upgrade", "version"] ∧
      List.Nodup ["completion", "config", "help", "upgrade", "version"]) :=
  ⟨by decide,
    get_completions_sorted_nodup emptyConfig emptyFs "bash" "prog " none
      ["completion", "config", "help", "upgrade", "version"] (by decide)⟩

/-- Counterexample to claim C3.  For the line `prog --verb` the cursor sits
immediately after the partially typed token `--verb`, yet the engine
classifies the context as `Option` without recording any partial text, skips
the prefix filter, and returns the standard flags — among them `-h`, which
does not start with `--verb`. -/
theorem option_context_unfiltered_counterexample :
    parse_command_line "prog --verb" none = some ["prog", "--verb"] ∧
    (analyze_context emptyConfig ["prog", "--verb"]).context_type =
      ContextType.Option ∧
    (analyze_context emptyConfig ["prog", "--verb"]).partial_text = none ∧
    get_completions emptyConfig emptyFs "bash" "prog --verb" none =
      some ["--help", "--version", "-V", "-h"] ∧
    startsWithStr "-h" "--verb" = false := by
  decide

/-- Claim C3 as amended.  The prefix invariant holds exactly for the
requests in which the classifier records a partial fragment (the `Command`
and `Subcommand` contexts): every candidate then starts with that fragment.
`Option` and `OptionValue` contexts record no fragment and are returned
unfiltered. -/
theorem partial_prefix_invariant (cfg : Config) (fs : FileSys)
    (shell current_line : String) (cursor_pos : Option Nat)
    (tokens : List String) (p : String) (out : List String) (c : String)
    (hparse : parse_command_line current_line cursor_pos = some tokens)
    (hfrag : (analyze_context cfg tokens).partial_text = some p)
    (hout : get_completions cfg fs shell current_line cursor_pos = some out)
    (hc : c ∈ out) : startsWithStr c p = true := by
  rw [get_completions, hparse] at hout
  injection hout with hout
  subst hout
  rw [mem_dedupSort] at hc
  rw [generate_completions, hfrag] at hc
  exact (List.mem_filter.mp hc).2

/-- Witness for the amended claim C3: completing `prog con` yields the
candidate `config`, and it indeed starts with the fragment `con`. -/
theorem partial_prefix_invariant_witness : startsWithStr "config" "con" = true :=
  partial_prefix_invariant emptyConfig emptyFs "bash" "prog con" none
    ["prog", "con"] "con" ["config"] "config"
    (by decide) (by decide) (by decide) (by decide)

/-- Claim C4.  Evaluating the engine on the line `prog config ` (trailing
space, cursor at the end, empty specification): the tokenizer drops the
empty trailing token, so the classifier sees the single token `config` and
returns a `Command` context with partial text `config`; the output is
`[config]`, not the subcommand set get/path/reset/set the claim states. -/
theorem trailing_space_config_completions :
    parse_command_line "prog config " none = some ["prog", "config"] ∧
    (analyze_context emptyConfig ["prog", "config"]).context_type =
      ContextType.Command ∧
    (analyze_context emptyConfig ["prog", "config"]).partial_text =
      some "config" ∧
    get_completions emptyConfig emptyFs "bash" "prog config " none =
      some ["config"] := by
  decide

/-- Counterexample to claim C5.  The token sequence `prog frobnicate xyz`
has no dash on its last or second-to-last token and its first remaining
token `frobnicate` matches no declared command, yet with two remaining
tokens the classifier yields `Unknown`, not the claimed `Command`
fallback. -/
theorem command_fallback_counterexample :
    startsWithStr "xyz" "-" = false ∧
    startsWithStr "frobnicate" "-" = false ∧
    List.lookup "frobnicate" (cliCommands emptyConfig) = none ∧
    (analyze_context emptyConfig ["prog", "frobnicate", "xyz"]).context_type =
      ContextType.Unknown ∧
    ¬ (analyze_context emptyConfig ["prog", "frobnicate", "xyz"]).context_type =
      ContextType.Command :=
  ⟨by decide, by decide, rfl, by decide, by decide⟩

/-- Claim C5 as amended.  With no dash on the last or second-to-last token,
the classifier returns `Command` exactly when one token remains after the
program name (which covers the unrecognized-single-token fallback), while
two or more remaining tokens whose first token matches no declared command
leave the context `Unknown`. -/
theorem command_context_amended (cfg : Config) (prog t : String)
    (toks : List String)
    (h1 : startsWithStr t "-" = false)
    (h2 : 2 ≤ toks.length)
    (h3 : startsWithStr (toks.getLastD "") "-" = false)
    (h4 : startsWithStr ((toks.get? (toks.length - 2)).getD "") "-" = false)
    (h5 : List.lookup (toks.headD "") (cliCommands cfg) = none) :
    (analyze_context cfg [prog, t]).context_type = ContextType.Command ∧
    (analyze_context cfg (prog :: toks)).context_type = ContextType.Unknown := by
  have h0 : startsWithStr "" "-" = false := by decide
  constructor
  · simp [analyze_context, h1, h0]
  · cases toks with
    | nil => simp at h2
    | cons a rest =>
      have hlen : 1 < (a :: rest).length := by
        simpa using h2
      have hne1 : ¬ (a :: rest).length = 1 := by omega
      simp only [analyze_context, List.isEmpty_cons, if_neg, Bool.false_eq_true,
        if_pos hlen, h3, h4, if_neg hne1, h5]
      simp [h3, h4, hne1, h5]

/-- Witness for the amended claim C5 at concrete token sequences. -/
theorem command_context_amended_witness :
    (analyze_context emptyConfig ["prog", "frobnicate"]).context_type =
      ContextType.Command ∧
    (analyze_context emptyConfig ["prog", "frobnicate", "extra"]).context_type =
      ContextType.Unknown :=
  command_context_amended emptyConfig "prog" "frobnicate" ["frobnicate", "extra"]
    (by decide) (by decide) (by decide) (by decide) rfl

/-- Claim C6.  The engine does not survive every cursor position: with the
line consisting of the single two-byte character U+00E9 and cursor position
1, the byte slice `&line[..1]` falls inside the character's UTF-8 encoding
and the Rust code panics (modelled `none`) instead of returning a list,
while the boundary cursor 2 completes normally. -/
theorem get_completions_panics_mid_char :
    get_completions emptyConfig emptyFs "bash"
      (String.mk [Char.ofNat 233]) (some 1) = none ∧
    get_completions emptyConfig emptyFs "bash"
      (String.mk [Char.ofNat 233]) (some 2) =
      some ["completion", "config", "help", "upgrade", "version"] := by
  decide

/-- Claim C7.  A missing specification file and an unparsable one both load
as the empty specification without raising, and with that empty
specification the line `prog ` still completes to the fixed built-in command
set help/version/completion/config/upgrade (sorted). -/
theorem missing_spec_degrades_to_builtins :
    load_config FileReadResult.readError = { cli := none } ∧
    load_config (FileReadResult.parseError "not yaml") = { cli := none } ∧
    get_completions (load_config FileReadResult.readError) emptyFs "bash"
      "prog " none =
      some ["completion", "config", "help", "upgrade", "version"] :=
  ⟨rfl, rfl, by decide⟩

/-- Claim C8.  Two calls of the engine with the same specification,
filesystem, shell, line and cursor return the same result. -/
theorem get_completions_deterministic (cfg : Config) (fs : FileSys)
    (shell current_line : String) (cursor_pos : Option Nat)
    (r1 r2 : Option (List String))
    (h1 : get_completions cfg fs shell current_line cursor_pos = r1)
    (h2 : get_completions cfg fs shell current_line cursor_pos = r2) :
    r1 = r2 :=
  h1 ▸ h2

/-- Witness for claim C8 at a concrete request. -/
theorem get_completions_deterministic_witness :
    get_completions emptyConfig emptyFs "bash" "prog config " none =
      get_completions emptyConfig emptyFs "bash" "prog config " none :=
  get_completions_deterministic emptyConfig emptyFs "bash" "prog config " none
    _ _ rfl rfl

/-- Claim C9.  The tokenizer does not return a token sequence for every
line and cursor position: on the line `aé` with cursor position 2 the byte
slice falls inside the two-byte character U+00E9 and the code panics
(modelled `none`) before the scan runs, while the neighbouring boundary
positions 1 and 3 tokenize normally. -/
theorem tokenizer_panic_before_scan :
    parse_command_line (String.mk [Char.ofNat 97, Char.ofNat 233]) (some 2) =
      none ∧
    parse_command_line (String.mk [Char.ofNat 97, Char.ofNat 233]) (some 1) =
      some ["a"] ∧
    parse_command_line (String.mk [Char.ofNat 97, Char.ofNat 233]) (some 3) =
      some [String.mk [Char.ofNat 97, Char.ofNat 233]] := by
  decide

/-- Claim C10.  Unless the loaded specification sets
`enable_upgrade_command` to `Some false` — in particular when the field is
absent or the whole specification is empty — the built-in `upgrade` command
is among the `Command`-context candidates, both in the raw generator and in
the completion output for the line `prog `. -/
theorem upgrade_enabled_by_default (cfg : Config) (fs : FileSys)
    (h : cfg.cli.bind CliConfig.enable_upgrade_command ≠ some false) :
    "upgrade" ∈ get_command_completions cfg ∧
    ∃ out, get_completions cfg fs "bash" "prog " none = some out ∧
      "upgrade" ∈ out := by
  have hflag : (cfg.cli.bind CliConfig.enable_upgrade_command).getD true = true := by
    cases hv : cfg.cli.bind CliConfig.enable_upgrade_command with
    | none => rfl
    | some b =>
      cases b with
      | false => exact absurd hv h
      | true => rfl
  have hmem : "upgrade" ∈ get_command_completions cfg := by
    rw [get_command_completions]
    simp only [hflag, if_pos]
    simp
  refine ⟨hmem, dedupSort (get_command_completions cfg), rfl, ?_⟩
  exact mem_dedupSort.mpr hmem

/-- Witness for claim C10 at the empty specification. -/
theorem upgrade_enabled_by_default_witness :
    "upgrade" ∈ get_command_completions emptyConfig :=
  (upgrade_enabled_by_default emptyConfig emptyFs (by decide)).1

end Goobits
